import Mathlib

/-!
Shallow embedding of the `tf` command-line wrapper (src/main.rs).

The program is a thin front-end over an external `terraform` executable:
`plan`, `apply`, `destroy`, `init` build an argument list from the `ENV`
process environment variable and spawn the tool; `set-env` rewrites the
`.envrc` file line by line and removes the `.terraform` cache directory.

Modelling choices:
- `.envrc` contents are modelled as `List Char` (the claims under study
  all presuppose valid UTF-8 input, which is the only case in which the
  source proceeds past its per-line UTF-8 check).
- `LineIterator` (read_until with the newline delimiter) becomes
  `splitLines`: chunks include their terminating newline; a final
  unterminated chunk is yielded as-is; empty input yields no chunks.
- The process environment is a function `String → Option String`
  (`std::env::var` returns `Err(NotPresent)` only when the variable is
  absent; a present empty value is `Ok("")`, i.e. `some ""`).
- Rust `Path::join` on Unix: an absolute argument replaces the base
  path entirely; otherwise a separator is inserted unless the base is
  empty or already ends with one (`pathJoin` below).
- Side effects (spawning, file writes, directory removal, printing) are
  recorded as an explicit trace `List Effect`; each handler returns the
  trace of effects it performed together with its `Except` outcome.
  The child-process world (its exit code) and the filesystem world
  (whether `.terraform` exists, whether write/removal succeed) are
  explicit parameters.
-/

namespace Tf

/-- The marker substring `set_env` looks for in each line
(`line.contains("export ENV")` in the source). -/
def marker : List Char := "export ENV".toList

/-- Substring containment on character lists, the embedding of Rust
`str::contains` with a literal pattern. -/
def listContains (needle : List Char) : List Char → Bool
  | [] => needle.isPrefixOf []
  | c :: t => needle.isPrefixOf (c :: t) || listContains needle t

/-- `LineIterator::next` repeated to exhaustion: split a character
stream into chunks, each including its terminating newline; the final
chunk may lack one; empty input gives no chunks. -/
def splitLines : List Char → List (List Char)
  | [] => []
  | c :: cs =>
    if c = '\n' then ['\n'] :: splitLines cs
    else
      match splitLines cs with
      | [] => [[c]]
      | l :: ls => (c :: l) :: ls

/-- The replacement line `format!("export ENV={}\n", new_env)`. -/
def envLine (newEnv : String) : List Char :=
  ("export ENV=" ++ newEnv ++ "\n").toList

/-- The per-line transform of `set_env`: a line containing the marker is
replaced by the freshly formatted line, any other line is kept verbatim
(including its trailing newline, which the chunk carries). -/
def rewriteLine (newEnv : String) (line : List Char) : List Char :=
  if listContains marker line then envLine newEnv else line

/-- The pure document rewrite performed by `set_env`: split into
delimiter-terminated chunks, transform each, concatenate. -/
def setEnvDoc (newEnv : String) (doc : List Char) : List Char :=
  ((splitLines doc).map (rewriteLine newEnv)).flatten

/-- Well-formedness of a chunk list: every chunk but the last ends in a
newline and has no interior newline; the last chunk is nonempty and
either also of that shape or newline-free. -/
inductive ChunksWF : List (List Char) → Prop
  | nil : ChunksWF []
  | last (l : List Char) : l ≠ [] → '\n' ∉ l → ChunksWF [l]
  | cons (m : List Char) (L : List (List Char)) :
      '\n' ∉ m → ChunksWF L → ChunksWF ((m ++ ['\n']) :: L)

/- Path construction (`Path::new("envs").join(env).join(file)`). -/

/-- Unix `Path::is_absolute` on the joined argument. -/
def startsWithSlash (s : String) : Bool := decide (s.toList.head? = some '/')

/-- Whether a path already ends with a separator, used by `PathBuf::push`
to decide whether to insert one. -/
def endsWithSlash (s : String) : Bool := decide (s.toList.getLast? = some '/')

/-- Rust `Path::join` on Unix: an absolute argument replaces the base;
otherwise a separator is inserted unless the base is empty or already
ends with one. No normalisation is performed. -/
def pathJoin (base p : String) : String :=
  if startsWithSlash p then p
  else if base = "" then p
  else if endsWithSlash base then base ++ p
  else base ++ "/" ++ p

/-- The variable-file path `Path::new("envs").join(env).join(file)`,
rendered with `to_string_lossy` (identity on the UTF-8 strings modelled
here). -/
def tfvarsPath (env file : String) : String :=
  pathJoin (pathJoin "envs" env) file

/- Errors, effects, and the execution worlds. -/

/-- The distinguishable failure modes surfaced by the handlers. -/
inductive TfError where
  /-- `std::env::var` returned `VarError::NotPresent`, propagated with
  `?` by `check_env`, `destroy` and `init`. -/
  | varNotPresent
  /-- The `.context("ENV var not set")` wrapper used in `apply`. -/
  | envVarNotSetCtx
  /-- A Rust panic, as raised by `.expect("env not set")` in `plan`. -/
  | panic (msg : String)
  /-- `fs::remove_dir_all(".terraform")` failed. -/
  | removeFailed
  /-- `fs::write(".envrc", ...)` failed. -/
  | writeFailed
deriving DecidableEq

/-- Observable side effects, recorded in program order. -/
inductive Effect where
  /-- A child process was spawned with the given program and arguments. -/
  | spawn (prog : String) (args : List String)
  /-- A file was written with the given contents. -/
  | fsWrite (path : String) (contents : List Char)
  /-- A directory was removed recursively. -/
  | fsRemoveDir (path : String)
  /-- The fixed reminder line `set_env` prints on success. -/
  | printedReminder
deriving DecidableEq

/-- The process environment: `none` models an absent variable
(`VarError::NotPresent`); a present variable carries its value, which
may be the empty string. -/
def Env : Type := String → Option String

/-- The outcome of a successfully spawned and awaited child process;
the source calls `.wait()?` and discards the returned `ExitStatus`. -/
structure ChildOutcome where
  exitCode : Int

/-- A handler run: the effects it performed, in order, and its result. -/
def Run : Type := List Effect × Except TfError Unit

/-- `check_env`: `env::var("ENV")?; env::var("AWS_PROFILE")?;`. -/
def check_env (e : Env) : Except TfError Unit :=
  match e "ENV" with
  | none => .error .varNotPresent
  | some _ =>
    match e "AWS_PROFILE" with
    | none => .error .varNotPresent
    | some _ => .ok ()

/-- `run_terraform`: spawn `terraform` with the given arguments,
inherit stdout, wait. The child outcome (in particular its exit code)
is never inspected, so a successfully spawned child always yields
success. -/
def run_terraform (args : List String) (child : ChildOutcome) : Run :=
  ([Effect.spawn "terraform" args], .ok ())

/-- The `apply` handler. Note the source builds a `destroy` invocation
here; `-y` (`auto_approve`) appends `--auto-approve`. -/
def apply (e : Env) (autoApprove : Bool) (child : ChildOutcome) : Run :=
  match check_env e with
  | .error err => ([], .error err)
  | .ok () =>
    match e "ENV" with
    | none => ([], .error .envVarNotSetCtx)
    | some env =>
      let file := tfvarsPath env "main.tfvars"
      let args := ["destroy", "-var-file", file]
      let args := if autoApprove then args ++ ["--auto-approve"] else args
      run_terraform args child

/-- The `plan` handler; its `ENV` read uses `.expect("env not set")`,
which panics rather than returning an error when absent. -/
def plan (e : Env) (child : ChildOutcome) : Run :=
  match check_env e with
  | .error err => ([], .error err)
  | .ok () =>
    match e "ENV" with
    | none => ([], .error (.panic "env not set"))
    | some env =>
      run_terraform ["plan", "-var-file", tfvarsPath env "main.tfvars"] child

/-- The `destroy` handler. -/
def destroy (e : Env) (child : ChildOutcome) : Run :=
  match check_env e with
  | .error err => ([], .error err)
  | .ok () =>
    match e "ENV" with
    | none => ([], .error .varNotPresent)
    | some env =>
      run_terraform ["destroy", "-var-file", tfvarsPath env "main.tfvars"] child

/-- The `init` handler. -/
def init (e : Env) (child : ChildOutcome) : Run :=
  match check_env e with
  | .error err => ([], .error err)
  | .ok () =>
    match e "ENV" with
    | none => ([], .error .varNotPresent)
    | some env =>
      run_terraform ["init", "-backend-config", tfvarsPath env "terraform_state.tfvars"] child

/-- The filesystem world `set_env` runs against: the current `.envrc`
contents (already read and decoded; the claims under study presuppose a
readable UTF-8 file), whether `.terraform` exists, and whether the
removal and the write succeed. -/
structure SetEnvWorld where
  envrc : List Char
  terraformExists : Bool
  removeSucceeds : Bool
  writeSucceeds : Bool

/-- The `set-env` handler: rewrite `.envrc` (see `setEnvDoc`), write it
back, then remove `.terraform` recursively if it exists, then print a
reminder. The write happens before the removal is attempted. -/
def set_env (newEnv : String) (w : SetEnvWorld) : Run :=
  let newContents := setEnvDoc newEnv w.envrc
  if w.writeSucceeds then
    if w.terraformExists then
      if w.removeSucceeds then
        ([Effect.fsWrite ".envrc" newContents, Effect.fsRemoveDir ".terraform",
          Effect.printedReminder], .ok ())
      else
        ([Effect.fsWrite ".envrc" newContents], .error .removeFailed)
    else
      ([Effect.fsWrite ".envrc" newContents, Effect.printedReminder], .ok ())
  else
    ([], .error .writeFailed)

/- Concrete environments used to instantiate the theorems. -/

/-- An ordinary environment: `ENV=dev`, `AWS_PROFILE=default`. -/
def envDev : Env := fun s =>
  if s = "ENV" then some "dev" else if s = "AWS_PROFILE" then some "default" else none

/-- An environment whose `ENV` value is an absolute path. -/
def envAbsolute : Env := fun s =>
  if s = "ENV" then some "/e" else if s = "AWS_PROFILE" then some "p" else none

/-- An environment where both variables are present but empty. -/
def envEmptyVals : Env := fun s =>
  if s = "ENV" then some "" else if s = "AWS_PROFILE" then some "" else none

/-- An environment with `ENV` set to the empty string. -/
def envEmptyEnvVar : Env := fun s =>
  if s = "ENV" then some "" else if s = "AWS_PROFILE" then some "x" else none

/-- The empty process environment. -/
def envAllAbsent : Env := fun _ => none

/- Structural lemmas about `splitLines`. -/

/-- Reassembling the chunks gives back the original stream. -/
theorem flatten_splitLines (s : List Char) : (splitLines s).flatten = s := by
  induction s with
  | nil => rfl
  | cons c cs ih =>
    by_cases h : c = '\n'
    · subst h
      simp [splitLines, ih]
    · simp only [splitLines, if_neg h]
      cases hs : splitLines cs with
      | nil =>
        rw [hs] at ih
        simp only [List.flatten_nil] at ih
        simp [← ih]
      | cons l ls =>
        rw [hs] at ih
        simp only [List.flatten_cons] at ih
        simpa using ih

/-- Prepending a non-newline character to the head chunk preserves
well-formedness. -/
theorem chunksWF_cons_extend (c : Char) (l : List Char) (ls : List (List Char))
    (hc : c ≠ '\n') (h : ChunksWF (l :: ls)) : ChunksWF ((c :: l) :: ls) := by
  cases h with
  | last _ hne hnl =>
    exact ChunksWF.last (c :: l) (by simp) (by simp [hnl, Ne.symm hc])
  | cons m _ hm hL =>
    exact ChunksWF.cons (c :: m) ls (by simp [hm, Ne.symm hc]) hL

theorem chunksWF_splitLines (s : List Char) : ChunksWF (splitLines s) := by
  induction s with
  | nil => exact ChunksWF.nil
  | cons c cs ih =>
    by_cases h : c = '\n'
    · subst h
      simp only [splitLines, if_pos rfl]
      exact ChunksWF.cons [] _ (by simp) ih
    · simp only [splitLines, if_neg h]
      cases hs : splitLines cs with
      | nil =>
        exact ChunksWF.last [c] (by simp) (by simp [Ne.symm h])
      | cons l ls =>
        rw [hs] at ih
        exact chunksWF_cons_extend c l ls h ih

/-- Splitting a stream beginning with a complete newline-free line. -/
theorem splitLines_append_newline (m r : List Char) (hm : '\n' ∉ m) :
    splitLines (m ++ '\n' :: r) = (m ++ ['\n']) :: splitLines r := by
  induction m with
  | nil => simp [splitLines]
  | cons c m ih =>
    have hc : c ≠ '\n' := fun h => hm (h ▸ List.mem_cons_self c m)
    have hm2 : '\n' ∉ m := fun h => hm (List.mem_cons_of_mem c h)
    simp only [List.cons_append, splitLines, if_neg hc]
    rw [List.append_eq, ih hm2]

/-- Splitting a nonempty newline-free stream yields a single chunk. -/
theorem splitLines_noNewline (l : List Char) (hne : l ≠ []) (hnl : '\n' ∉ l) :
    splitLines l = [l] := by
  induction l with
  | nil => exact absurd rfl hne
  | cons c cs ih =>
    have hc : c ≠ '\n' := fun h => hnl (h ▸ List.mem_cons_self c cs)
    have hcs : '\n' ∉ cs := fun h => hnl (List.mem_cons_of_mem c h)
    simp only [splitLines, if_neg hc]
    cases hcse : cs with
    | nil => simp [hcse, splitLines]
    | cons d ds =>
      rw [← hcse, ih (by simp [hcse]) hcs]

/-- Splitting inverts flattening on well-formed chunk lists. -/
theorem splitLines_flatten (L : List (List Char)) (h : ChunksWF L) :
    splitLines L.flatten = L := by
  induction h with
  | nil => rfl
  | last l hne hnl =>
    simp only [List.flatten_cons, List.flatten_nil, List.append_nil]
    exact splitLines_noNewline l hne hnl
  | cons m L hm hL ih =>
    simp only [List.flatten_cons, List.append_assoc, List.singleton_append]
    rw [splitLines_append_newline m L.flatten hm, ih]

/- Helper lemmas. -/

theorem toList_eq_data (s : String) : s.toList = s.data := rfl

theorem check_env_ok_iff (e : Env) :
    check_env e = .ok () ↔ (∃ v, e "ENV" = some v) ∧ (∃ w, e "AWS_PROFILE" = some w) := by
  unfold check_env
  cases h1 : e "ENV" <;> cases h2 : e "AWS_PROFILE" <;> simp

theorem append_ne_empty_left (a b : String) (ha : a.data ≠ []) : a ++ b ≠ "" := by
  intro h
  have hd := congrArg String.data h
  rw [String.data_append] at hd
  exact ha (List.append_eq_nil.mp hd).1

theorem pathJoin_eq_append (base p : String) (hb0 : base ≠ "")
    (hbs : endsWithSlash base = false) (hps : startsWithSlash p = false) :
    pathJoin base p = base ++ "/" ++ p := by
  unfold pathJoin
  rw [hps, hbs]
  simp [hb0]

theorem tfvarsPath_eq (E f : String) (h1 : E.toList ≠ []) (h2 : E.toList.head? ≠ some '/')
    (h3 : E.toList.getLast? ≠ some '/') (h4 : startsWithSlash f = false) :
    tfvarsPath E f = "envs/" ++ E ++ ("/" ++ f) := by
  have hsw : startsWithSlash E = false := by
    unfold startsWithSlash
    exact decide_eq_false h2
  have hbase : pathJoin "envs" E = "envs" ++ "/" ++ E :=
    pathJoin_eq_append "envs" E (by decide) (by decide) hsw
  have hE0 : "envs" ++ "/" ++ E ≠ "" := append_ne_empty_left _ E (by decide)
  have hes : endsWithSlash ("envs" ++ "/" ++ E) = false := by
    unfold endsWithSlash
    apply decide_eq_false
    intro hc
    rw [toList_eq_data, String.data_append, List.getLast?_append] at hc
    cases hE : E.data with
    | nil => exact h1 (by rw [toList_eq_data, hE])
    | cons d ds =>
      rw [hE] at hc
      rcases hgl : (d :: ds).getLast? with _ | c
      · simp at hgl
      · rw [hgl, Option.or_some] at hc
        exact h3 (by rw [toList_eq_data, hE, hgl, ← hc])
  unfold tfvarsPath
  rw [hbase, pathJoin_eq_append _ f hE0 hes h4]
  rw [String.append_assoc, String.append_assoc]
  rfl

/-- `check_env` succeeding pins both variables to concrete values. -/
theorem check_env_ok_elim (e : Env) (h : check_env e = .ok ()) :
    ∃ v w, e "ENV" = some v ∧ e "AWS_PROFILE" = some w := by
  rcases (check_env_ok_iff e).mp h with ⟨⟨v, hv⟩, ⟨w, hw⟩⟩
  exact ⟨v, w, hv, hw⟩

/- Lemmas about the `.envrc` rewrite. -/

theorem envLine_decomp (X : String) :
    envLine X = ("export ENV=" ++ X).toList ++ ['\n'] := by
  unfold envLine
  rw [toList_eq_data, toList_eq_data, String.data_append, String.data_append]

theorem newline_not_mem_envLine_front (X : String) (h : '\n' ∉ X.toList) :
    '\n' ∉ ("export ENV=" ++ X).toList := by
  rw [toList_eq_data, String.data_append]
  intro hc
  rcases List.mem_append.mp hc with hc | hc
  · revert hc
    decide
  · exact h hc

/-- The marker is a prefix of every freshly formatted line, so a
replaced line still matches on a second pass. -/
theorem listContains_marker_envLine (X : String) :
    listContains marker (envLine X) = true := by
  have hpre : marker <+: envLine X := by
    unfold marker envLine
    rw [toList_eq_data, toList_eq_data, String.data_append, String.data_append]
    have : ("export ENV=" : String).data = ("export ENV" : String).data ++ ['='] := by decide
    rw [this, List.append_assoc, List.append_assoc]
    exact ⟨_, rfl⟩
  cases hl : envLine X with
  | nil =>
    rw [hl] at hpre
    have := List.prefix_nil.mp hpre
    simp [marker] at this
  | cons c t =>
    rw [hl] at hpre
    unfold listContains
    rw [Bool.or_eq_true, List.isPrefixOf_iff_prefix]
    exact Or.inl hpre

theorem rewriteLine_envLine (X : String) :
    rewriteLine X (envLine X) = envLine X := by
  unfold rewriteLine
  rw [listContains_marker_envLine]
  simp

theorem rewriteLine_idem (X : String) (l : List Char) :
    rewriteLine X (rewriteLine X l) = rewriteLine X l := by
  by_cases h : listContains marker l = true
  · unfold rewriteLine
    rw [h]
    simp only [if_true]
    rw [show (if listContains marker (envLine X) = true then envLine X else envLine X)
        = envLine X by simp]
  · unfold rewriteLine
    rw [Bool.not_eq_true] at h
    rw [h]
    simp [h]

/-- Rewriting preserves chunk well-formedness as long as the new
environment name contains no newline. -/
theorem chunksWF_map_rewrite (X : String) (hX : '\n' ∉ X.toList)
    (L : List (List Char)) (h : ChunksWF L) :
    ChunksWF (L.map (rewriteLine X)) := by
  have hrw : ∀ l : List Char, rewriteLine X l = l ∨ rewriteLine X l = envLine X := by
    intro l
    unfold rewriteLine
    by_cases hc : listContains marker l = true
    · rw [hc]; simp
    · rw [Bool.not_eq_true] at hc; rw [hc]; simp
  induction h with
  | nil => exact ChunksWF.nil
  | last l hne hnl =>
    rcases hrw l with hl | hl
    · rw [List.map_cons, List.map_nil, hl]
      exact ChunksWF.last l hne hnl
    · rw [List.map_cons, List.map_nil, hl, envLine_decomp]
      exact ChunksWF.cons _ [] (newline_not_mem_envLine_front X hX) ChunksWF.nil
  | cons m L hm hL ih =>
    rcases hrw (m ++ ['\n']) with hl | hl
    · rw [List.map_cons, hl]
      exact ChunksWF.cons m _ hm ih
    · rw [List.map_cons, hl, envLine_decomp]
      exact ChunksWF.cons _ _ (newline_not_mem_envLine_front X hX) ih

theorem rewriteLine_of_contains (X : String) (l : List Char)
    (h : listContains marker l = true) : rewriteLine X l = envLine X := by
  unfold rewriteLine
  rw [h]
  simp

theorem map_rewriteLine_of_no_match (X : String) (L : List (List Char))
    (h : ∀ m ∈ L, listContains marker m = false) : L.map (rewriteLine X) = L := by
  have h2 : L.map (rewriteLine X) = L.map id :=
    List.map_congr_left (fun m hm => by unfold rewriteLine; rw [h m hm]; simp)
  rw [h2, List.map_id]

/- Claim theorems. -/

/-- C4: for every document whose line chunks contain exactly one line
with the marker substring `export ENV`, running `set-env X` yields the
document obtained by replacing that line with `export ENV=X` followed
by a newline, every other line kept byte-identical and in order. -/
theorem setEnvDoc_single_match (X : String) (doc l : List Char)
    (pre post : List (List Char))
    (hsplit : splitLines doc = pre ++ l :: post)
    (hl : listContains marker l = true)
    (hpre : ∀ m ∈ pre, listContains marker m = false)
    (hpost : ∀ m ∈ post, listContains marker m = false) :
    setEnvDoc X doc = (pre ++ envLine X :: post).flatten := by
  unfold setEnvDoc
  rw [hsplit, List.map_append, List.map_cons, rewriteLine_of_contains X l hl,
    map_rewriteLine_of_no_match X pre hpre, map_rewriteLine_of_no_match X post hpost]

theorem setEnvDoc_single_match_witness :
    splitLines ("export PATH=/x\nexport ENV=dev\nexport FOO=1\n".toList)
      = ["export PATH=/x\n".toList] ++ "export ENV=dev\n".toList :: ["export FOO=1\n".toList]
    ∧ listContains marker ("export ENV=dev\n".toList) = true
    ∧ (∀ m ∈ ["export PATH=/x\n".toList], listContains marker m = false)
    ∧ (∀ m ∈ ["export FOO=1\n".toList], listContains marker m = false)
    ∧ setEnvDoc "prod" ("export PATH=/x\nexport ENV=dev\nexport FOO=1\n".toList)
      = (["export PATH=/x\n".toList] ++ envLine "prod" :: ["export FOO=1\n".toList]).flatten :=
  ⟨by decide, by decide, by decide, by decide,
   setEnvDoc_single_match "prod" ("export PATH=/x\nexport ENV=dev\nexport FOO=1\n".toList)
     ("export ENV=dev\n".toList) ["export PATH=/x\n".toList] ["export FOO=1\n".toList]
     (by decide) (by decide) (by decide) (by decide)⟩

/-- C5: for every document with no line containing the marker substring,
`set-env X` leaves the contents unchanged; in particular no line is
inserted. -/
theorem setEnvDoc_no_match (X : String) (doc : List Char)
    (h : ∀ l ∈ splitLines doc, listContains marker l = false) :
    setEnvDoc X doc = doc := by
  unfold setEnvDoc
  rw [map_rewriteLine_of_no_match X _ h, flatten_splitLines]

theorem setEnvDoc_no_match_witness :
    (∀ l ∈ splitLines ("export PATH=/x\nFOO=1".toList), listContains marker l = false)
    ∧ setEnvDoc "prod" ("export PATH=/x\nFOO=1".toList) = "export PATH=/x\nFOO=1".toList :=
  ⟨by decide, setEnvDoc_no_match "prod" _ (by decide)⟩

/-- C6 (amended): the `set-env` document rewrite is idempotent for every
new environment name that contains no newline character: running it
twice with the same name yields the same document as running it once. -/
theorem setEnvDoc_idempotent (X : String) (doc : List Char) (hX : '\n' ∉ X.toList) :
    setEnvDoc X (setEnvDoc X doc) = setEnvDoc X doc := by
  unfold setEnvDoc
  rw [splitLines_flatten _ (chunksWF_map_rewrite X hX _ (chunksWF_splitLines doc))]
  rw [List.map_map]
  congr 1
  exact List.map_congr_left (fun l _ => rewriteLine_idem X l)

theorem setEnvDoc_idempotent_witness :
    '\n' ∉ ("prod" : String).toList
    ∧ setEnvDoc "prod" (setEnvDoc "prod" ("export ENV=dev\n".toList))
      = setEnvDoc "prod" ("export ENV=dev\n".toList) :=
  ⟨by decide, setEnvDoc_idempotent "prod" _ (by decide)⟩

/-- C6 (counterexample): with a new environment name containing a
newline, a second run duplicates the spilled-over tail, so the rewrite
is not idempotent for every name. -/
theorem setEnvDoc_not_idempotent_newline :
    setEnvDoc "a\nb" (setEnvDoc "a\nb" ("export ENV=0\n".toList))
      ≠ setEnvDoc "a\nb" ("export ENV=0\n".toList) := by decide

/-- C8: when the marker-bearing line is the final chunk and is not
newline-terminated, `set-env X` still writes `export ENV=X` followed by
a newline, so the rewritten document gains a trailing newline the
original lacked. -/
theorem setEnvDoc_unterminated_final (X : String) (doc l : List Char)
    (pre : List (List Char))
    (hsplit : splitLines doc = pre ++ [l])
    (hl : listContains marker l = true)
    (hnl : '\n' ∉ l) :
    setEnvDoc X doc = (pre.map (rewriteLine X)).flatten ++ envLine X
    ∧ doc.getLast? ≠ some '\n'
    ∧ (setEnvDoc X doc).getLast? = some '\n' := by
  have hlne : l ≠ [] := by
    intro h
    rw [h] at hl
    exact absurd hl (by decide)
  have hpart1 : setEnvDoc X doc = (pre.map (rewriteLine X)).flatten ++ envLine X := by
    unfold setEnvDoc
    rw [hsplit, List.map_append, List.map_cons, List.map_nil,
      rewriteLine_of_contains X l hl, List.flatten_append]
    simp
  have hdoc : doc = pre.flatten ++ l := by
    conv_lhs => rw [← flatten_splitLines doc]
    rw [hsplit, List.flatten_append]
    simp
  have hl2 : l.getLast? ≠ some '\n' := fun hc => hnl (List.mem_of_getLast?_eq_some hc)
  have hlast : doc.getLast? ≠ some '\n' := by
    rw [hdoc, List.getLast?_append]
    cases hg : l.getLast? with
    | none => exact absurd (List.getLast?_eq_none_iff.mp hg) hlne
    | some c =>
      rw [Option.or_some]
      rw [hg] at hl2
      exact hl2
  have henv : (envLine X).getLast? = some '\n' := by
    rw [envLine_decomp, List.getLast?_append]
    rfl
  refine ⟨hpart1, hlast, ?_⟩
  rw [hpart1, List.getLast?_append, henv, Option.or_some]

theorem setEnvDoc_unterminated_final_witness :
    splitLines ("export ENV=dev".toList) = [] ++ ["export ENV=dev".toList]
    ∧ listContains marker ("export ENV=dev".toList) = true
    ∧ '\n' ∉ ("export ENV=dev".toList)
    ∧ (setEnvDoc "prod" ("export ENV=dev".toList)
        = (([] : List (List Char)).map (rewriteLine "prod")).flatten ++ envLine "prod"
      ∧ ("export ENV=dev".toList).getLast? ≠ some '\n'
      ∧ (setEnvDoc "prod" ("export ENV=dev".toList)).getLast? = some '\n') :=
  ⟨by decide, by decide, by decide,
   setEnvDoc_unterminated_final "prod" ("export ENV=dev".toList) ("export ENV=dev".toList)
     [] (by decide) (by decide) (by decide)⟩

/-- C1 (amended): with `ENV` set to a value `E` that is nonempty, does
not begin with `/`, and does not end with `/` (and `AWS_PROFILE`
present so the guard passes), `apply` spawns the external tool with
exactly `destroy -var-file envs/E/main.tfvars`, with `--auto-approve`
appended as final argument iff `-y` was given, and succeeds. -/
theorem apply_invocation (e : Env) (E : String) (y : Bool) (c : ChildOutcome)
    (hE : e "ENV" = some E) (hA : (e "AWS_PROFILE").isSome = true)
    (h1 : E.toList ≠ []) (h2 : E.toList.head? ≠ some '/')
    (h3 : E.toList.getLast? ≠ some '/') :
    apply e y c = ([Effect.spawn "terraform"
      (["destroy", "-var-file", "envs/" ++ E ++ "/main.tfvars"]
        ++ if y then ["--auto-approve"] else [])], .ok ()) := by
  rcases Option.isSome_iff_exists.mp hA with ⟨w, hw⟩
  have hchk : check_env e = .ok () := (check_env_ok_iff e).mpr ⟨⟨E, hE⟩, ⟨w, hw⟩⟩
  have hpath := tfvarsPath_eq E "main.tfvars" h1 h2 h3 (by decide)
  unfold apply
  rw [hchk, hE]
  unfold run_terraform
  cases y <;> simp [hpath, String.append_assoc]

theorem apply_invocation_witness :
    envDev "ENV" = some "dev"
    ∧ apply envDev true ⟨0⟩ = ([Effect.spawn "terraform"
        (["destroy", "-var-file", "envs/" ++ "dev" ++ "/main.tfvars"]
          ++ if true then ["--auto-approve"] else [])], .ok ()) :=
  ⟨rfl, apply_invocation envDev "dev" true ⟨0⟩ rfl rfl (by decide) (by decide) (by decide)⟩

/-- C1 (counterexample): with `ENV=/e`, `Path::join` replaces the
`envs` base entirely (its argument is absolute), so the tool is invoked
with `-var-file /e/main.tfvars`, not `envs//e/main.tfvars` as the claim
universally states. -/
theorem apply_invocation_absolute_env :
    apply envAbsolute false ⟨0⟩
      = ([Effect.spawn "terraform" ["destroy", "-var-file", "/e/main.tfvars"]], .ok ())
    ∧ ("/e/main.tfvars" : String) ≠ "envs//e/main.tfvars" :=
  ⟨rfl, by decide⟩

/-- C7 (amended): with `ENV` set to a value `E` that is nonempty, does
not begin with `/`, and does not end with `/` (and `AWS_PROFILE`
present), `plan` spawns exactly `plan -var-file envs/E/main.tfvars`,
`destroy` exactly `destroy -var-file envs/E/main.tfvars`, and `init`
exactly `init -backend-config envs/E/terraform_state.tfvars`. -/
theorem plan_destroy_init_invocation (e : Env) (E : String) (c : ChildOutcome)
    (hE : e "ENV" = some E) (hA : (e "AWS_PROFILE").isSome = true)
    (h1 : E.toList ≠ []) (h2 : E.toList.head? ≠ some '/')
    (h3 : E.toList.getLast? ≠ some '/') :
    plan e c = ([Effect.spawn "terraform"
        ["plan", "-var-file", "envs/" ++ E ++ "/main.tfvars"]], .ok ())
    ∧ destroy e c = ([Effect.spawn "terraform"
        ["destroy", "-var-file", "envs/" ++ E ++ "/main.tfvars"]], .ok ())
    ∧ init e c = ([Effect.spawn "terraform"
        ["init", "-backend-config", "envs/" ++ E ++ "/terraform_state.tfvars"]], .ok ()) := by
  rcases Option.isSome_iff_exists.mp hA with ⟨w, hw⟩
  have hchk : check_env e = .ok () := (check_env_ok_iff e).mpr ⟨⟨E, hE⟩, ⟨w, hw⟩⟩
  have hpathM := tfvarsPath_eq E "main.tfvars" h1 h2 h3 (by decide)
  have hpathS := tfvarsPath_eq E "terraform_state.tfvars" h1 h2 h3 (by decide)
  refine ⟨?_, ?_, ?_⟩
  · unfold plan
    rw [hchk, hE]
    unfold run_terraform
    simp [hpathM, String.append_assoc]
  · unfold destroy
    rw [hchk, hE]
    unfold run_terraform
    simp [hpathM, String.append_assoc]
  · unfold init
    rw [hchk, hE]
    unfold run_terraform
    simp [hpathS, String.append_assoc]

theorem plan_destroy_init_invocation_witness :
    envDev "ENV" = some "dev"
    ∧ plan envDev ⟨0⟩ = ([Effect.spawn "terraform"
        ["plan", "-var-file", "envs/" ++ "dev" ++ "/main.tfvars"]], .ok ()) :=
  ⟨rfl, (plan_destroy_init_invocation envDev "dev" ⟨0⟩ rfl rfl
      (by decide) (by decide) (by decide)).1⟩

/-- C7 (counterexample): with `ENV` present but empty, `PathBuf::push`
adds a single separator, so `plan` is invoked with
`-var-file envs/main.tfvars`, not `envs//main.tfvars` as the claim's
template would read for that value. -/
theorem plan_invocation_empty_env :
    plan envEmptyEnvVar ⟨0⟩
      = ([Effect.spawn "terraform" ["plan", "-var-file", "envs/main.tfvars"]], .ok ())
    ∧ ("envs/main.tfvars" : String) ≠ "envs//main.tfvars" :=
  ⟨rfl, by decide⟩

/-- C2 (amended): the environment guard verifies that `ENV` and
`AWS_PROFILE` are both present (set to any value, the empty string
included); if either is absent, every guarded command fails before any
subprocess is spawned and with zero filesystem side effects (its effect
trace is empty). -/
theorem guarded_commands_fail_closed (e : Env)
    (h : e "ENV" = none ∨ e "AWS_PROFILE" = none) :
    check_env e = .error .varNotPresent
    ∧ (∀ (y : Bool) (c : ChildOutcome), apply e y c = ([], .error .varNotPresent))
    ∧ (∀ c : ChildOutcome, plan e c = ([], .error .varNotPresent))
    ∧ (∀ c : ChildOutcome, destroy e c = ([], .error .varNotPresent))
    ∧ (∀ c : ChildOutcome, init e c = ([], .error .varNotPresent)) := by
  have hchk : check_env e = .error .varNotPresent := by
    unfold check_env
    rcases h with h | h
    · rw [h]
    · rw [h]
      cases e "ENV" <;> rfl
  refine ⟨hchk, fun y c => ?_, fun c => ?_, fun c => ?_, fun c => ?_⟩
  · unfold apply
    rw [hchk]
  · unfold plan
    rw [hchk]
  · unfold destroy
    rw [hchk]
  · unfold init
    rw [hchk]

theorem guarded_commands_fail_closed_witness :
    (envAllAbsent "ENV" = none ∨ envAllAbsent "AWS_PROFILE" = none)
    ∧ plan envAllAbsent ⟨0⟩ = ([], .error .varNotPresent) :=
  ⟨Or.inl rfl, (guarded_commands_fail_closed envAllAbsent (Or.inl rfl)).2.2.1 ⟨0⟩⟩

/-- C2 (counterexample): `std::env::var` returns `Ok("")` for a present
but empty variable, so with `ENV` and `AWS_PROFILE` both set to the
empty string the guard succeeds and `plan` proceeds to spawn the
subprocess, although the claim says an empty value must fail before any
subprocess is spawned. -/
theorem check_env_accepts_empty_values :
    check_env envEmptyVals = .ok ()
    ∧ plan envEmptyVals ⟨0⟩
      = ([Effect.spawn "terraform" ["plan", "-var-file", "envs/main.tfvars"]], .ok ()) :=
  ⟨rfl, rfl⟩

/-- C3: whenever the guard passes and the external tool is successfully
spawned, every guarded command succeeds whatever the child's exit code:
the result is `ok` and the whole run is independent of the exit code. -/
theorem child_exit_ignored (e : Env) (h : check_env e = .ok ()) :
    ∀ (y : Bool) (c c2 : ChildOutcome),
      (apply e y c).2 = .ok () ∧ (plan e c).2 = .ok ()
      ∧ (destroy e c).2 = .ok () ∧ (init e c).2 = .ok ()
      ∧ apply e y c = apply e y c2 ∧ plan e c = plan e c2
      ∧ destroy e c = destroy e c2 ∧ init e c = init e c2 := by
  rcases check_env_ok_elim e h with ⟨v, w, hv, hw⟩
  intro y c c2
  unfold apply plan destroy init
  rw [h, hv]
  unfold run_terraform
  cases y <;> simp

theorem child_exit_ignored_witness :
    check_env envDev = .ok ()
    ∧ ((apply envDev false ⟨1⟩).2 = .ok () ∧ (plan envDev ⟨1⟩).2 = .ok ()
      ∧ (destroy envDev ⟨1⟩).2 = .ok () ∧ (init envDev ⟨1⟩).2 = .ok ()
      ∧ apply envDev false ⟨1⟩ = apply envDev false ⟨0⟩
      ∧ plan envDev ⟨1⟩ = plan envDev ⟨0⟩
      ∧ destroy envDev ⟨1⟩ = destroy envDev ⟨0⟩
      ∧ init envDev ⟨1⟩ = init envDev ⟨0⟩) :=
  ⟨rfl, child_exit_ignored envDev rfl false ⟨1⟩ ⟨0⟩⟩

/-- C9: when `check_env` succeeds, the `ENV` variable is present, so
the second `ENV` read in each handler cannot take its failure branch:
`plan` cannot reach the panic of `.expect("env not set")`, `apply`
cannot produce its `ENV var not set` context error, and the `?`
propagation in `destroy` and `init` cannot fire. -/
theorem guard_makes_env_read_safe (e : Env) (h : check_env e = .ok ()) :
    (e "ENV").isSome = true
    ∧ (∀ c : ChildOutcome, (plan e c).2 ≠ .error (.panic "env not set"))
    ∧ (∀ (y : Bool) (c : ChildOutcome), (apply e y c).2 ≠ .error .envVarNotSetCtx)
    ∧ (∀ c : ChildOutcome, (destroy e c).2 ≠ .error .varNotPresent)
    ∧ (∀ c : ChildOutcome, (init e c).2 ≠ .error .varNotPresent) := by
  rcases check_env_ok_elim e h with ⟨v, w, hv, hw⟩
  refine ⟨by rw [hv]; rfl, fun c => ?_, fun y c => ?_, fun c => ?_, fun c => ?_⟩
  · unfold plan
    rw [h, hv]
    unfold run_terraform
    simp
  · unfold apply
    rw [h, hv]
    unfold run_terraform
    cases y <;> simp
  · unfold destroy
    rw [h, hv]
    unfold run_terraform
    simp
  · unfold init
    rw [h, hv]
    unfold run_terraform
    simp

theorem guard_makes_env_read_safe_witness :
    check_env envDev = .ok ()
    ∧ (envDev "ENV").isSome = true
    ∧ (plan envDev ⟨0⟩).2 ≠ .error (.panic "env not set") :=
  ⟨rfl, (guard_makes_env_read_safe envDev rfl).1,
    (guard_makes_env_read_safe envDev rfl).2.1 ⟨0⟩⟩

/-- C10: `set-env` writes the rewritten `.envrc` before attempting the
`.terraform` removal: when removal fails, the command errors with the
write already in its effect trace; when `.terraform` is absent, it
succeeds after the write without any removal effect; when removal
succeeds, the write precedes the removal in the trace. -/
theorem set_env_write_before_remove (n : String) (doc : List Char) :
    set_env n ⟨doc, true, false, true⟩
      = ([Effect.fsWrite ".envrc" (setEnvDoc n doc)], .error .removeFailed)
    ∧ set_env n ⟨doc, false, true, true⟩
      = ([Effect.fsWrite ".envrc" (setEnvDoc n doc), Effect.printedReminder], .ok ())
    ∧ set_env n ⟨doc, true, true, true⟩
      = ([Effect.fsWrite ".envrc" (setEnvDoc n doc), Effect.fsRemoveDir ".terraform",
          Effect.printedReminder], .ok ()) :=
  ⟨rfl, rfl, rfl⟩

end Tf
